import Mathlib

/-!
Formal model of the Voice-Dataset-Collector repository.

`App` embeds the ingestion pipeline of `src/app.py` (`safe_upload`,
`process_and_upload`, `on_submit`).  `Casting` embeds the materialization
pass of `src/casting.py` (`process_dataset`).

External collaborators are modelled at the interface they cross:
the Hugging Face store is a behaviour function saying whether each upload
attempt / download / per-split push succeeds, `uuid.uuid4` is an injective
fresh-name supply driven by a counter, `datetime.utcnow` is a structured
UTC time rendered by a model of `isoformat`, the FLAC encoder and
`soundfile.read` are opaque functions, and byte strings are `String`
(UTF-8 is the identity at this level of abstraction).  Store interactions
are recorded as an explicit event trace.
-/

namespace App

/-- One observable store interaction of the ingestion pipeline:
a call to `hf.upload_file` (`attempt`), a successful write of an object
(`uploaded path content`), or a backoff (`time.sleep`). -/
inductive Ev : Type
  | attempt : String → Ev
  | uploaded : String → String → Ev
  | sleep : Nat → Ev
  deriving DecidableEq, Repr

/-- The objects actually written to the store, in order, read off a trace. -/
def writesOf (t : List Ev) : List (String × String) :=
  t.filterMap (fun e =>
    match e with
    | Ev.uploaded p c => some (p, c)
    | _ => none)

/-- Number of upload attempts (calls to `hf.upload_file`) in a trace. -/
def attemptsOf (t : List Ev) : Nat :=
  (t.filter (fun e =>
    match e with
    | Ev.attempt _ => true
    | _ => false)).length

/-- The store path an event concerns, if any. -/
def evPath : Ev → Option String
  | Ev.attempt p => some p
  | Ev.uploaded p _ => some p
  | Ev.sleep _ => none

/-- Model of `safe_upload` from `app.py`:

    for attempt in range(3):
        try:
            return hf.upload_file(...)
        except Exception as e:
            if attempt == 2:
                raise
            print(f"Upload failed, retrying... ({attempt+1}/3)")
            time.sleep(2)

`behav path k` says whether the store accepts attempt number `k` on `path`
(any raised exception is a `false`; the model keeps no error classes, as the
code distinguishes none).  The fuel argument counts the loop iterations left;
the exhausted case models Python falling off the loop and returning `None`,
which is unreachable when started with fuel 3 at attempt 0.
The raised exception is identified by the failing path. -/
def safe_upload_go (behav : String → Nat → Bool) (fileobj path_in_repo : String) :
    Nat → Nat → List Ev × Except String Unit
  | _, 0 => ([], Except.ok ())
  | attempt, fuel + 1 =>
    if behav path_in_repo attempt then
      ([Ev.attempt path_in_repo, Ev.uploaded path_in_repo fileobj], Except.ok ())
    else if attempt == 2 then
      ([Ev.attempt path_in_repo], Except.error path_in_repo)
    else
      let rest := safe_upload_go behav fileobj path_in_repo (attempt + 1) fuel
      (Ev.attempt path_in_repo :: Ev.sleep 2 :: rest.1, rest.2)

/-- Entry point of the retry loop: attempt 0 with the three loop iterations. -/
def safe_upload (behav : String → Nat → Bool) (fileobj path_in_repo : String) :
    List Ev × Except String Unit :=
  safe_upload_go behav fileobj path_in_repo 0 3

/-- Full case analysis of `safe_upload` over the store's behaviour on the
three attempts. -/
theorem safe_upload_eq (behav : String → Nat → Bool) (c p : String) :
    safe_upload behav c p =
      if behav p 0 then ([Ev.attempt p, Ev.uploaded p c], Except.ok ())
      else if behav p 1 then
        ([Ev.attempt p, Ev.sleep 2, Ev.attempt p, Ev.uploaded p c], Except.ok ())
      else if behav p 2 then
        ([Ev.attempt p, Ev.sleep 2, Ev.attempt p, Ev.sleep 2, Ev.attempt p,
          Ev.uploaded p c], Except.ok ())
      else
        ([Ev.attempt p, Ev.sleep 2, Ev.attempt p, Ev.sleep 2, Ev.attempt p],
          Except.error p) := by
  cases h0 : behav p 0 <;> cases h1 : behav p 1 <;> cases h2 : behav p 2 <;>
    simp [safe_upload, safe_upload_go, h0, h1, h2]

/-- C1: every upload is attempted at most 3 times; if the store raises on the
first 2 attempts and succeeds on the 3rd, the upload succeeds, exactly 3
attempts are observed, and a fixed 2 time-unit backoff follows each of the two
failed attempts; if the store raises on all 3 attempts, exactly 3 attempts are
observed and the final error is propagated to the caller. -/
theorem retry_policy_C1 (behav : String → Nat → Bool) (c p : String) :
    attemptsOf (safe_upload behav c p).1 ≤ 3 ∧
    (behav p 0 = false → behav p 1 = false → behav p 2 = true →
      (safe_upload behav c p).2 = Except.ok () ∧
      attemptsOf (safe_upload behav c p).1 = 3 ∧
      (safe_upload behav c p).1 =
        [Ev.attempt p, Ev.sleep 2, Ev.attempt p, Ev.sleep 2, Ev.attempt p,
         Ev.uploaded p c]) ∧
    (behav p 0 = false → behav p 1 = false → behav p 2 = false →
      (safe_upload behav c p).2 = Except.error p ∧
      attemptsOf (safe_upload behav c p).1 = 3 ∧
      (safe_upload behav c p).1 =
        [Ev.attempt p, Ev.sleep 2, Ev.attempt p, Ev.sleep 2, Ev.attempt p]) := by
  rw [safe_upload_eq]
  cases h0 : behav p 0 <;> cases h1 : behav p 1 <;> cases h2 : behav p 2 <;>
    simp [attemptsOf]

/-- Witness for C1 at a store that fails attempts 0 and 1 and accepts attempt 2. -/
theorem retry_policy_C1_witness :
    ((fun (_ : String) (k : Nat) => k == 2) "data/id0.flac" 0 = false) ∧
    (safe_upload (fun _ k => k == 2) "flacbytes" "data/id0.flac").2 = Except.ok () ∧
    attemptsOf (safe_upload (fun _ k => k == 2) "flacbytes" "data/id0.flac").1 = 3 := by
  have h := retry_policy_C1 (fun _ k => k == 2) "flacbytes" "data/id0.flac"
  exact ⟨rfl, (h.2.1 rfl rfl rfl).1, (h.2.1 rfl rfl rfl).2.1⟩

/-- Model of the value returned by `datetime.utcnow()`: a structured UTC
instant. -/
structure UTCTime where
  year : Nat
  month : Nat
  day : Nat
  hour : Nat
  minute : Nat
  second : Nat
  micro : Nat
  deriving DecidableEq, Repr

def pad2 (n : Nat) : String := (if n < 10 then "0" else "") ++ Nat.repr n

def pad4 (n : Nat) : String :=
  (if n < 10 then "000" else if n < 100 then "00" else if n < 1000 then "0" else "") ++
    Nat.repr n

def pad6 (n : Nat) : String :=
  (if n < 10 then "00000" else if n < 100 then "0000" else if n < 1000 then "000"
   else if n < 10000 then "00" else if n < 100000 then "0" else "") ++ Nat.repr n

/-- Model of `datetime.isoformat()`: `YYYY-MM-DDTHH:MM:SS[.ffffff]`
(the microsecond part is omitted when zero, as in Python). -/
def isoformat (t : UTCTime) : String :=
  pad4 t.year ++ "-" ++ pad2 t.month ++ "-" ++ pad2 t.day ++ "T" ++
  pad2 t.hour ++ ":" ++ pad2 t.minute ++ ":" ++ pad2 t.second ++
  (if t.micro = 0 then "" else "." ++ pad6 t.micro)

/-- JSON values occurring in the metadata object of `app.py`: Python strings
and `None`.  The sidecar is flat, so no nested objects or arrays arise. -/
inductive JVal : Type
  | str : String → JVal
  | null : JVal
  deriving DecidableEq, Repr

/-- How an optional Python string lands in JSON (`None` becomes `null`). -/
def jopt : Option String → JVal
  | none => JVal.null
  | some s => JVal.str s

def hexDigit (n : Nat) : Char :=
  if n < 10 then Char.ofNat (48 + n) else Char.ofNat (87 + n)

/-- Escaping of one character by `json.dumps(..., ensure_ascii=False)`:
quote, backslash and the control characters below 0x20 are escaped, every
other character — in particular all non-ASCII text — passes through
verbatim. -/
def jsonEscapeChar (c : Char) : List Char :=
  if c = '"' then ['\\', '"']
  else if c = '\\' then ['\\', '\\']
  else if c = Char.ofNat 8 then ['\\', 'b']
  else if c = Char.ofNat 12 then ['\\', 'f']
  else if c = '\n' then ['\\', 'n']
  else if c = '\r' then ['\\', 'r']
  else if c = '\t' then ['\\', 't']
  else if c.toNat < 32 then
    ['\\', 'u', '0', '0', hexDigit (c.toNat / 16), hexDigit (c.toNat % 16)]
  else [c]

/-- A JSON string literal as produced by `json.dumps(..., ensure_ascii=False)`. -/
def jsonQuoteStr (s : String) : String :=
  "\"" ++ String.mk (s.data.flatMap jsonEscapeChar) ++ "\""

def jval_render : JVal → String
  | JVal.str s => jsonQuoteStr s
  | JVal.null => "null"

/-- The members of a JSON object rendered with `json.dumps` default
separators (comma-space, colon-space), in insertion order as in Python. -/
def renderFields : List (String × JVal) → String
  | [] => ""
  | [kv] => jsonQuoteStr kv.1 ++ ": " ++ jval_render kv.2
  | kv :: kv2 :: rest =>
      jsonQuoteStr kv.1 ++ ": " ++ jval_render kv.2 ++ ", " ++
        renderFields (kv2 :: rest)

/-- Model of `json.dumps(meta, ensure_ascii=False)` for a flat object. -/
def json_dumps (kvs : List (String × JVal)) : String := "\x7b" ++ renderFields kvs ++ "\x7d"

/-- The audio path `f"\x7bREPO_SUBFOLDER\x7d/\x7bentry_id\x7d.flac"`. -/
def audio_filename (subfolder entry_id : String) : String :=
  subfolder ++ "/" ++ entry_id ++ ".flac"

/-- The sidecar path `f"\x7bREPO_SUBFOLDER\x7d/\x7bentry_id\x7d.json"`. -/
def json_filename (subfolder entry_id : String) : String :=
  subfolder ++ "/" ++ entry_id ++ ".json"

/-- The default of `os.environ.get("HF_REPO_SUBFOLDER", "data")`. -/
def default_subfolder : String := "data"

/-- The `meta` dict built by `process_and_upload`, in insertion order. -/
def meta_of (entry_id audio_fn transcript : String)
    (speaker_id language : Option String) (timestamp : String) :
    List (String × JVal) :=
  [("id", JVal.str entry_id),
   ("audio", JVal.str audio_fn),
   ("transcript", JVal.str transcript),
   ("speaker_id", jopt speaker_id),
   ("language", jopt language),
   ("timestamp", JVal.str timestamp)]

/-- Result of one `process_and_upload` call: the store-interaction trace, the
Python return value (or the propagated exception), the generated `entry_id`,
and the advanced state of the uuid supply. -/
structure IngestResult where
  events : List Ev
  result : Except String (Bool × String)
  rid : String
  gen : Nat
  deriving Repr

/-- Model of `process_and_upload` from `app.py`.  `uuid` is the fresh-name supply
modelling `uuid.uuid4` (driven by counter `g`), `encode` models the
in-memory FLAC encoding `sf.write(buf, audio_array, samplerate, "FLAC")`,
`behav` is the store's per-path per-attempt behaviour, and `t` the value of
`datetime.utcnow()`. -/
def process_and_upload (uuid : Nat → String) (encode : List Int → Nat → String)
    (behav : String → Nat → Bool) (subfolder : String) (t : UTCTime) (g : Nat)
    (audio_array : List Int) (sample_rate : Nat) (transcript : String)
    (speaker_id language : Option String) : IngestResult :=
  let entry_id := uuid g
  let timestamp := isoformat t ++ "Z"
  let afn := audio_filename subfolder entry_id
  let jfn := json_filename subfolder entry_id
  let buf := encode audio_array sample_rate
  let up1 := safe_upload behav buf afn
  match up1.2 with
  | Except.error e => ⟨up1.1, Except.error e, entry_id, g + 1⟩
  | Except.ok _ =>
    let meta := meta_of entry_id afn transcript speaker_id language timestamp
    let meta_bytes := json_dumps meta
    let up2 := safe_upload behav meta_bytes jfn
    match up2.2 with
    | Except.error e => ⟨up1.1 ++ up2.1, Except.error e, entry_id, g + 1⟩
    | Except.ok _ =>
        ⟨up1.1 ++ up2.1, Except.ok (true, "Uploaded: " ++ entry_id), entry_id, g + 1⟩

/-- Model of Python `str.strip()`. -/
def pyStrip (s : String) : String :=
  String.mk (((s.data.dropWhile Char.isWhitespace).reverse.dropWhile
    Char.isWhitespace).reverse)

/-- The validation message of `on_submit`. -/
def validation_msg : String := "Please record audio and type transcript."

/-- Result of one `on_submit` call: trace, returned status string or the
propagated exception, and the advanced uuid supply. -/
structure SubmitResult where
  events : List Ev
  result : Except String String
  gen : Nat
  deriving Repr

/-- Model of `on_submit` from `app.py`:

    if audio_path is None or not transcript.strip():
        return "Please record audio and type transcript."
    arr, sr = sf.read(audio_path, dtype="float32")
    success, msg = process_and_upload(arr, sr, transcript, speaker_id, language)
    return msg

`sfRead` models `sf.read`.  There is no exception handler, so an error from
`process_and_upload` propagates (the `Except.error` channel). -/
def on_submit (uuid : Nat → String) (encode : List Int → Nat → String)
    (sfRead : String → List Int × Nat) (behav : String → Nat → Bool)
    (subfolder : String) (t : UTCTime) (g : Nat)
    (audio_path : Option String) (transcript : String)
    (speaker_id language : String) : SubmitResult :=
  match audio_path with
  | none => ⟨[], Except.ok validation_msg, g⟩
  | some p =>
    if pyStrip transcript == "" then ⟨[], Except.ok validation_msg, g⟩
    else
      let rs := sfRead p
      let r := process_and_upload uuid encode behav subfolder t g rs.1 rs.2
        transcript (some speaker_id) (some language)
      match r.result with
      | Except.ok sm => ⟨r.events, Except.ok sm.2, r.gen⟩
      | Except.error e => ⟨r.events, Except.error e, r.gen⟩

theorem writesOf_append (a b : List Ev) :
    writesOf (a ++ b) = writesOf a ++ writesOf b := by
  simp [writesOf, List.filterMap_append]

theorem safe_upload_writes_ok (behav : String → Nat → Bool) (c p : String)
    (h : (safe_upload behav c p).2 = Except.ok ()) :
    writesOf (safe_upload behav c p).1 = [(p, c)] := by
  rw [safe_upload_eq] at h ⊢
  cases h0 : behav p 0 <;> cases h1 : behav p 1 <;> cases h2 : behav p 2 <;>
    simp [h0, h1, h2, writesOf] at h ⊢

theorem safe_upload_writes_err (behav : String → Nat → Bool) (c p e : String)
    (h : (safe_upload behav c p).2 = Except.error e) :
    writesOf (safe_upload behav c p).1 = [] ∧ e = p := by
  rw [safe_upload_eq] at h ⊢
  cases h0 : behav p 0 <;> cases h1 : behav p 1 <;> cases h2 : behav p 2 <;>
    simp [h0, h1, h2, writesOf] at h ⊢
  exact h.symm

theorem safe_upload_path_events (behav : String → Nat → Bool) (c p : String) :
    ∀ ev ∈ (safe_upload behav c p).1, evPath ev = none ∨ evPath ev = some p := by
  rw [safe_upload_eq]
  cases h0 : behav p 0 <;> cases h1 : behav p 1 <;> cases h2 : behav p 2 <;>
    simp [h0, h1, h2, evPath]

/-- C2: a submission whose audio is absent or whose transcript is empty or
whitespace-only returns the validation message, performs no store interaction
at all (empty trace, hence zero writes and zero attempts) and consumes no id. -/
theorem validation_no_store_C2 (uuid : Nat → String)
    (encode : List Int → Nat → String) (sfRead : String → List Int × Nat)
    (behav : String → Nat → Bool) (subfolder : String) (t : UTCTime) (g : Nat)
    (audio_path : Option String) (transcript : String) (spk lang : String)
    (h : audio_path = none ∨ pyStrip transcript = "") :
    on_submit uuid encode sfRead behav subfolder t g audio_path transcript
        spk lang = ⟨[], Except.ok validation_msg, g⟩ ∧
    writesOf (on_submit uuid encode sfRead behav subfolder t g audio_path
        transcript spk lang).events = [] ∧
    attemptsOf (on_submit uuid encode sfRead behav subfolder t g audio_path
        transcript spk lang).events = 0 := by
  rcases audio_path with _ | p
  · simp [on_submit, writesOf, attemptsOf]
  · rcases h with h | h
    · exact absurd h (by simp)
    · simp [on_submit, h, writesOf, attemptsOf]

/-- Witness for C2: a whitespace-only transcript with audio present. -/
theorem validation_no_store_C2_witness :
    ((some "rec.wav" : Option String) = none ∨ pyStrip "  " = "") ∧
    on_submit (fun n => Nat.repr n) (fun _ _ => "FLAC") (fun _ => ([0], 16000))
        (fun _ _ => true) "data" ⟨2026, 1, 2, 3, 4, 5, 6⟩ 0 (some "rec.wav")
        "  " "" "" = ⟨[], Except.ok validation_msg, 0⟩ := by
  refine ⟨Or.inr (by decide), ?_⟩
  exact (validation_no_store_C2 (fun n => Nat.repr n) (fun _ _ => "FLAC")
    (fun _ => ([0], 16000)) (fun _ _ => true) "data" ⟨2026, 1, 2, 3, 4, 5, 6⟩ 0
    (some "rec.wav") "  " "" "" (Or.inr (by decide))).1

/-- C3: a `process_and_upload` call that returns `ok` has produced exactly one
new id (the uuid counter advanced by one), written exactly the two objects
`<subfolder>/<id>.flac` (the encoded audio) and `<subfolder>/<id>.json` (the
metadata, whose `audio` field is the path the audio blob was uploaded at), and
returned `(True, "Uploaded: <id>")`. -/
theorem ingest_success_two_objects_C3 (uuid : Nat → String)
    (encode : List Int → Nat → String) (behav : String → Nat → Bool)
    (subfolder : String) (t : UTCTime) (g : Nat) (arr : List Int) (sr : Nat)
    (transcript : String) (spk lang : Option String) (r : Bool × String)
    (hok : (process_and_upload uuid encode behav subfolder t g arr sr transcript
        spk lang).result = Except.ok r) :
    r = (true, "Uploaded: " ++ uuid g) ∧
    (process_and_upload uuid encode behav subfolder t g arr sr transcript spk
        lang).rid = uuid g ∧
    (process_and_upload uuid encode behav subfolder t g arr sr transcript spk
        lang).gen = g + 1 ∧
    writesOf (process_and_upload uuid encode behav subfolder t g arr sr
        transcript spk lang).events =
      [(audio_filename subfolder (uuid g), encode arr sr),
       (json_filename subfolder (uuid g),
        json_dumps (meta_of (uuid g) (audio_filename subfolder (uuid g))
          transcript spk lang (isoformat t ++ "Z")))] ∧
    List.lookup "audio" (meta_of (uuid g) (audio_filename subfolder (uuid g))
        transcript spk lang (isoformat t ++ "Z")) =
      some (JVal.str (audio_filename subfolder (uuid g))) := by
  simp only [process_and_upload] at hok ⊢
  cases h1 : (safe_upload behav (encode arr sr)
      (audio_filename subfolder (uuid g))).2 with
  | error e => simp [h1] at hok
  | ok u =>
    cases h2 : (safe_upload behav
        (json_dumps (meta_of (uuid g) (audio_filename subfolder (uuid g))
          transcript spk lang (isoformat t ++ "Z")))
        (json_filename subfolder (uuid g))).2 with
    | error e => simp [h1, h2] at hok
    | ok u2 =>
      simp [h1, h2] at hok ⊢
      exact ⟨hok.symm, writesOf_append _ _ ▸ by
        rw [safe_upload_writes_ok _ _ _ h1, safe_upload_writes_ok _ _ _ h2]
        simp, by simp [meta_of, List.lookup]⟩

/-- Witness for C3: a fully successful ingestion of "hello world". -/
theorem ingest_success_two_objects_C3_witness :
    (process_and_upload (fun n => Nat.repr n) (fun _ _ => "FLAC") (fun _ _ => true)
        "data" ⟨2026, 1, 2, 3, 4, 5, 0⟩ 0 [0] 16000 "hello world" (some "spk1")
        (some "en")).result = Except.ok (true, "Uploaded: " ++ Nat.repr 0) ∧
    writesOf (process_and_upload (fun n => Nat.repr n) (fun _ _ => "FLAC")
        (fun _ _ => true) "data" ⟨2026, 1, 2, 3, 4, 5, 0⟩ 0 [0] 16000
        "hello world" (some "spk1") (some "en")).events =
      [(audio_filename "data" (Nat.repr 0), "FLAC"),
       (json_filename "data" (Nat.repr 0),
        json_dumps (meta_of (Nat.repr 0) (audio_filename "data" (Nat.repr 0))
          "hello world" (some "spk1") (some "en")
          (isoformat ⟨2026, 1, 2, 3, 4, 5, 0⟩ ++ "Z")))] := by
  refine ⟨rfl, ?_⟩
  exact (ingest_success_two_objects_C3 (fun n => Nat.repr n) (fun _ _ => "FLAC")
    (fun _ _ => true) "data" ⟨2026, 1, 2, 3, 4, 5, 0⟩ 0 [0] 16000 "hello world"
    (some "spk1") (some "en") (true, "Uploaded: " ++ Nat.repr 0) rfl).2.2.2.1

/-- C10: the trace of every ingestion run splits into the audio-upload events
followed by the metadata-upload events (so the audio blob upload is attempted
strictly before the JSON upload), and whenever the JSON sidecar was written
the audio blob was written too — a JSON without its audio blob never occurs. -/
theorem audio_before_json_C10 (uuid : Nat → String)
    (encode : List Int → Nat → String) (behav : String → Nat → Bool)
    (subfolder : String) (t : UTCTime) (g : Nat) (arr : List Int) (sr : Nat)
    (transcript : String) (spk lang : Option String) :
    (∃ e1 e2,
      (process_and_upload uuid encode behav subfolder t g arr sr transcript spk
          lang).events = e1 ++ e2 ∧
      (∀ ev ∈ e1, evPath ev = none ∨
        evPath ev = some (audio_filename subfolder (uuid g))) ∧
      (∀ ev ∈ e2, evPath ev = none ∨
        evPath ev = some (json_filename subfolder (uuid g)))) ∧
    (∀ c : String,
      (json_filename subfolder (uuid g), c) ∈
        writesOf (process_and_upload uuid encode behav subfolder t g arr sr
          transcript spk lang).events →
      (audio_filename subfolder (uuid g), encode arr sr) ∈
        writesOf (process_and_upload uuid encode behav subfolder t g arr sr
          transcript spk lang).events) := by
  simp only [process_and_upload]
  cases h1 : (safe_upload behav (encode arr sr)
      (audio_filename subfolder (uuid g))).2 with
  | error e =>
    simp only [h1]
    constructor
    · exact ⟨(safe_upload behav (encode arr sr)
        (audio_filename subfolder (uuid g))).1, [], by simp,
        safe_upload_path_events _ _ _, by simp⟩
    · intro c hc
      rw [(safe_upload_writes_err _ _ _ _ h1).1] at hc
      exact absurd hc (List.not_mem_nil _)
  | ok u =>
    cases h2 : (safe_upload behav
        (json_dumps (meta_of (uuid g) (audio_filename subfolder (uuid g))
          transcript spk lang (isoformat t ++ "Z")))
        (json_filename subfolder (uuid g))).2 with
    | error e =>
      simp only [h1, h2]
      constructor
      · exact ⟨_, _, rfl, safe_upload_path_events _ _ _,
          safe_upload_path_events _ _ _⟩
      · intro c _
        rw [writesOf_append, safe_upload_writes_ok _ _ _ h1]
        simp
    | ok u2 =>
      simp only [h1, h2]
      constructor
      · exact ⟨_, _, rfl, safe_upload_path_events _ _ _,
          safe_upload_path_events _ _ _⟩
      · intro c _
        rw [writesOf_append, safe_upload_writes_ok _ _ _ h1]
        simp

/-- Witness for C10 at a fully successful run; the split of the trace is the
first conjunct of the claim theorem. -/
theorem audio_before_json_C10_witness :
    ((json_filename "data" (Nat.repr 0),
        json_dumps (meta_of (Nat.repr 0) (audio_filename "data" (Nat.repr 0))
          "hi" none none (isoformat ⟨2026, 1, 2, 3, 4, 5, 0⟩ ++ "Z"))) ∈
      writesOf (process_and_upload (fun n => Nat.repr n) (fun _ _ => "FLAC")
        (fun _ _ => true) "data" ⟨2026, 1, 2, 3, 4, 5, 0⟩ 0 [0] 16000 "hi"
        none none).events) ∧
    ((audio_filename "data" (Nat.repr 0), "FLAC") ∈
      writesOf (process_and_upload (fun n => Nat.repr n) (fun _ _ => "FLAC")
        (fun _ _ => true) "data" ⟨2026, 1, 2, 3, 4, 5, 0⟩ 0 [0] 16000 "hi"
        none none).events) := by
  have hmem : (json_filename "data" (Nat.repr 0),
      json_dumps (meta_of (Nat.repr 0) (audio_filename "data" (Nat.repr 0))
        "hi" none none (isoformat ⟨2026, 1, 2, 3, 4, 5, 0⟩ ++ "Z"))) ∈
      writesOf (process_and_upload (fun n => Nat.repr n) (fun _ _ => "FLAC")
        (fun _ _ => true) "data" ⟨2026, 1, 2, 3, 4, 5, 0⟩ 0 [0] 16000 "hi"
        none none).events := by decide
  exact ⟨hmem, (audio_before_json_C10 (fun n => Nat.repr n) (fun _ _ => "FLAC")
    (fun _ _ => true) "data" ⟨2026, 1, 2, 3, 4, 5, 0⟩ 0 [0] 16000 "hi"
    none none).2 _ hmem⟩

theorem process_and_upload_fresh (uuid : Nat → String)
    (encode : List Int → Nat → String) (behav : String → Nat → Bool)
    (subfolder : String) (t : UTCTime) (g : Nat) (arr : List Int) (sr : Nat)
    (transcript : String) (spk lang : Option String) :
    (process_and_upload uuid encode behav subfolder t g arr sr transcript spk
        lang).rid = uuid g ∧
    (process_and_upload uuid encode behav subfolder t g arr sr transcript spk
        lang).gen = g + 1 := by
  simp only [process_and_upload]
  cases h1 : (safe_upload behav (encode arr sr)
      (audio_filename subfolder (uuid g))).2 with
  | error e => simp [h1]
  | ok u =>
    cases h2 : (safe_upload behav
        (json_dumps (meta_of (uuid g) (audio_filename subfolder (uuid g))
          transcript spk lang (isoformat t ++ "Z")))
        (json_filename subfolder (uuid g))).2 with
    | error e => simp [h1, h2]
    | ok u2 => simp [h1, h2]

/-- Strings of the form `a ++ mid ++ x ++ suf` determine `x`. -/
theorem affix_inj (a mid suf : String) {x y : String}
    (h : a ++ mid ++ x ++ suf = a ++ mid ++ y ++ suf) : x = y := by
  have h2 := congrArg String.data h
  simp only [String.data_append, List.append_assoc] at h2
  exact String.ext (List.append_cancel_right
    (List.append_cancel_left (List.append_cancel_left h2)))

/-- An injective fresh-name supply standing in for `uuid.uuid4` in witnesses. -/
def uuidModel (n : Nat) : String := String.mk (List.replicate n 'u')

theorem uuidModel_inj : Function.Injective uuidModel := by
  intro a b h
  have h2 := congrArg (fun s => s.data.length) h
  simpa [uuidModel] using h2

/-- C9: ingestion is not idempotent.  Calling `process_and_upload` twice with
identical input (the second call seeing the uuid state left by the first)
assigns exactly one fresh id per call, and the two calls produce distinct ids
and hence distinct record pairs (distinct audio and JSON paths). -/
theorem not_idempotent_C9 (uuid : Nat → String)
    (encode : List Int → Nat → String) (behav : String → Nat → Bool)
    (subfolder : String) (t : UTCTime) (g : Nat) (arr : List Int) (sr : Nat)
    (transcript : String) (spk lang : Option String)
    (hinj : Function.Injective uuid) :
    (process_and_upload uuid encode behav subfolder t g arr sr transcript spk
        lang).rid = uuid g ∧
    (process_and_upload uuid encode behav subfolder t g arr sr transcript spk
        lang).gen = g + 1 ∧
    (process_and_upload uuid encode behav subfolder t
        (process_and_upload uuid encode behav subfolder t g arr sr transcript
          spk lang).gen arr sr transcript spk lang).rid = uuid (g + 1) ∧
    (process_and_upload uuid encode behav subfolder t g arr sr transcript spk
        lang).rid ≠
      (process_and_upload uuid encode behav subfolder t
        (process_and_upload uuid encode behav subfolder t g arr sr transcript
          spk lang).gen arr sr transcript spk lang).rid ∧
    audio_filename subfolder (process_and_upload uuid encode behav subfolder t
        g arr sr transcript spk lang).rid ≠
      audio_filename subfolder (process_and_upload uuid encode behav subfolder
        t (process_and_upload uuid encode behav subfolder t g arr sr transcript
          spk lang).gen arr sr transcript spk lang).rid ∧
    json_filename subfolder (process_and_upload uuid encode behav subfolder t
        g arr sr transcript spk lang).rid ≠
      json_filename subfolder (process_and_upload uuid encode behav subfolder
        t (process_and_upload uuid encode behav subfolder t g arr sr transcript
          spk lang).gen arr sr transcript spk lang).rid := by
  obtain ⟨hr1, hg1⟩ := process_and_upload_fresh uuid encode behav subfolder t g
    arr sr transcript spk lang
  obtain ⟨hr2, _⟩ := process_and_upload_fresh uuid encode behav subfolder t
    (g + 1) arr sr transcript spk lang
  rw [hg1]
  have hne : uuid g ≠ uuid (g + 1) := by
    intro hEq
    exact absurd (hinj hEq) (by omega)
  refine ⟨hr1, rfl, hr2, ?_, ?_, ?_⟩
  · rw [hr1, hr2]; exact hne
  · rw [hr1, hr2]
    intro hEq
    simp only [audio_filename] at hEq
    exact hne (affix_inj subfolder "/" ".flac" hEq)
  · rw [hr1, hr2]
    intro hEq
    simp only [json_filename] at hEq
    exact hne (affix_inj subfolder "/" ".json" hEq)

/-- Witness for C9 with the injective supply `uuidModel`. -/
theorem not_idempotent_C9_witness :
    (process_and_upload uuidModel (fun _ _ => "FLAC") (fun _ _ => true) "data"
        ⟨2026, 1, 2, 3, 4, 5, 0⟩ 0 [0] 16000 "hi" none none).rid ≠
      (process_and_upload uuidModel (fun _ _ => "FLAC") (fun _ _ => true) "data"
        ⟨2026, 1, 2, 3, 4, 5, 0⟩ (process_and_upload uuidModel (fun _ _ => "FLAC")
          (fun _ _ => true) "data" ⟨2026, 1, 2, 3, 4, 5, 0⟩ 0 [0] 16000 "hi"
          none none).gen [0] 16000 "hi" none none).rid :=
  (not_idempotent_C9 uuidModel (fun _ _ => "FLAC") (fun _ _ => true) "data"
    ⟨2026, 1, 2, 3, 4, 5, 0⟩ 0 [0] 16000 "hi" none none uuidModel_inj).2.2.2.1

theorem process_and_upload_audio_fail (uuid : Nat → String)
    (encode : List Int → Nat → String) (behav : String → Nat → Bool)
    (subfolder : String) (t : UTCTime) (g : Nat) (arr : List Int) (sr : Nat)
    (transcript : String) (spk lang : Option String)
    (hb : ∀ k, behav (audio_filename subfolder (uuid g)) k = false) :
    (process_and_upload uuid encode behav subfolder t g arr sr transcript spk
        lang).result = Except.error (audio_filename subfolder (uuid g)) := by
  simp [process_and_upload, safe_upload_eq, hb]

/-- C8 counterexample: with a store that raises on every attempt, `on_submit`
does not return an "upload failed" status string; the exception escapes
(the `error` channel), contradicting the claimed status-string outcome. -/
theorem upload_failure_propagates_C8_cex :
    (on_submit (fun n => Nat.repr n) (fun _ _ => "FLAC") (fun _ => ([0], 16000))
        (fun _ _ => false) "data" ⟨2026, 1, 2, 3, 4, 5, 6⟩ 0 (some "rec.wav")
        "hello" "" "").result = Except.error "data/0.flac" := by rfl

theorem process_and_upload_upload_fail (uuid : Nat → String)
    (encode : List Int → Nat → String) (behav : String → Nat → Bool)
    (subfolder : String) (t : UTCTime) (g : Nat) (arr : List Int) (sr : Nat)
    (transcript : String) (spk lang : Option String)
    (hb : (∀ k, behav (audio_filename subfolder (uuid g)) k = false) ∨
          (∀ k, behav (json_filename subfolder (uuid g)) k = false)) :
    (process_and_upload uuid encode behav subfolder t g arr sr transcript spk
        lang).result = Except.error (audio_filename subfolder (uuid g)) ∨
    (process_and_upload uuid encode behav subfolder t g arr sr transcript spk
        lang).result = Except.error (json_filename subfolder (uuid g)) := by
  rcases hb with hbA | hbJ
  · exact Or.inl (process_and_upload_audio_fail uuid encode behav subfolder t g
      arr sr transcript spk lang hbA)
  · simp only [process_and_upload]
    cases h1 : (safe_upload behav (encode arr sr)
        (audio_filename subfolder (uuid g))).2 with
    | error e =>
      left
      have he := (safe_upload_writes_err _ _ _ _ h1).2
      simp [h1, he]
    | ok u =>
      right
      have hj : (safe_upload behav
          (json_dumps (meta_of (uuid g) (audio_filename subfolder (uuid g))
            transcript spk lang (isoformat t ++ "Z")))
          (json_filename subfolder (uuid g))).2 =
          Except.error (json_filename subfolder (uuid g)) := by
        rw [safe_upload_eq]
        simp [hbJ]
      simp [h1, hj]

/-- C8 (amended): validation failures return the human-readable status
message, but a valid submission whose audio or metadata upload exhausts the
retry budget produces no status string at all: `on_submit` has no exception
handler, so the store error (identified by the failing upload path)
propagates out of the entry point, never an `ok` status string. -/
theorem upload_failure_propagates_C8 (uuid : Nat → String)
    (encode : List Int → Nat → String) (sfRead : String → List Int × Nat)
    (behav : String → Nat → Bool) (subfolder : String) (t : UTCTime) (g : Nat)
    (p transcript spk lang : String)
    (hts : (pyStrip transcript == "") = false)
    (hb : (∀ k, behav (audio_filename subfolder (uuid g)) k = false) ∨
          (∀ k, behav (json_filename subfolder (uuid g)) k = false)) :
    ((on_submit uuid encode sfRead behav subfolder t g (some p) transcript spk
        lang).result = Except.error (audio_filename subfolder (uuid g)) ∨
     (on_submit uuid encode sfRead behav subfolder t g (some p) transcript spk
        lang).result = Except.error (json_filename subfolder (uuid g))) ∧
    (∀ s : String, (on_submit uuid encode sfRead behav subfolder t g (some p)
        transcript spk lang).result ≠ Except.ok s) ∧
    (on_submit uuid encode sfRead behav subfolder t g none transcript spk
        lang).result = Except.ok validation_msg := by
  have hfail := process_and_upload_upload_fail uuid encode behav subfolder t g
    (sfRead p).1 (sfRead p).2 transcript (some spk) (some lang) hb
  have hres : (on_submit uuid encode sfRead behav subfolder t g (some p)
      transcript spk lang).result =
        Except.error (audio_filename subfolder (uuid g)) ∨
      (on_submit uuid encode sfRead behav subfolder t g (some p) transcript spk
        lang).result = Except.error (json_filename subfolder (uuid g)) := by
    rcases hfail with hf | hf
    · left
      simp only [on_submit, hts, Bool.false_eq_true, if_false]
      rw [hf]
    · right
      simp only [on_submit, hts, Bool.false_eq_true, if_false]
      rw [hf]
  refine ⟨hres, ?_, rfl⟩
  intro s
  rcases hres with h | h <;> rw [h] <;> simp

/-- Witness for C8 (amended) at a concrete store that accepts the audio blob
but fails every attempt of the metadata JSON upload, so the retry budget is
exhausted at the second upload site. -/
theorem upload_failure_propagates_C8_witness :
    ((pyStrip "hi" == "") = false) ∧
    (∀ k : Nat, ((fun (q : String) (_ : Nat) => q == "data/0.flac")
        (json_filename "data" (Nat.repr 0)) k) = false) ∧
    ((on_submit (fun n => Nat.repr n) (fun _ _ => "FLAC") (fun _ => ([0], 16000))
        (fun q _ => q == "data/0.flac") "data" ⟨2026, 1, 2, 3, 4, 5, 6⟩ 0
        (some "a.wav") "hi" "" "").result
        = Except.error (audio_filename "data" (Nat.repr 0)) ∨
     (on_submit (fun n => Nat.repr n) (fun _ _ => "FLAC") (fun _ => ([0], 16000))
        (fun q _ => q == "data/0.flac") "data" ⟨2026, 1, 2, 3, 4, 5, 6⟩ 0
        (some "a.wav") "hi" "" "").result
        = Except.error (json_filename "data" (Nat.repr 0))) := by
  have hjson : (json_filename "data" (Nat.repr 0) == "data/0.flac") = false := by
    decide
  refine ⟨by decide, fun k => hjson, ?_⟩
  exact (upload_failure_propagates_C8 (fun n => Nat.repr n) (fun _ _ => "FLAC")
    (fun _ => ([0], 16000)) (fun q _ => q == "data/0.flac") "data"
    ⟨2026, 1, 2, 3, 4, 5, 6⟩ 0 "a.wav" "hi" "" "" (by decide)
    (Or.inr (fun k => hjson))).1

theorem jsonEscapeChar_plain {c : Char} (h1 : c ≠ '"') (h2 : c ≠ '\\')
    (h3 : 32 ≤ c.toNat) : jsonEscapeChar c = [c] := by
  have e8 : c ≠ Char.ofNat 8 := by
    intro hc; rw [hc] at h3; exact absurd h3 (by decide)
  have e12 : c ≠ Char.ofNat 12 := by
    intro hc; rw [hc] at h3; exact absurd h3 (by decide)
  have en : c ≠ '\n' := by
    intro hc; rw [hc] at h3; exact absurd h3 (by decide)
  have er : c ≠ '\r' := by
    intro hc; rw [hc] at h3; exact absurd h3 (by decide)
  have et : c ≠ '\t' := by
    intro hc; rw [hc] at h3; exact absurd h3 (by decide)
  have hlt : ¬ c.toNat < 32 := by omega
  simp [jsonEscapeChar, h1, h2, e8, e12, en, er, et, hlt]

theorem escape_plain_list (l : List Char)
    (h : ∀ c ∈ l, c ≠ '"' ∧ c ≠ '\\' ∧ 32 ≤ c.toNat) :
    l.flatMap jsonEscapeChar = l := by
  induction l with
  | nil => rfl
  | cons c cs ih =>
    rw [List.flatMap_cons,
      jsonEscapeChar_plain (h c (List.mem_cons_self c cs)).1
        (h c (List.mem_cons_self c cs)).2.1 (h c (List.mem_cons_self c cs)).2.2,
      ih (fun x hx => h x (List.mem_cons_of_mem c hx))]
    rfl

theorem jsonQuoteStr_plain (s : String)
    (h : ∀ c ∈ s.data, c ≠ '"' ∧ c ≠ '\\' ∧ 32 ≤ c.toNat) :
    jsonQuoteStr s = "\"" ++ s ++ "\"" := by
  unfold jsonQuoteStr
  rw [escape_plain_list s.data h]

/-- C7: the metadata sidecar is a flat JSON object with exactly the keys
`id, audio, transcript, speaker_id, language, timestamp` in that order, the
transcript value is the submitted transcript unchanged, the timestamp is the
ingestion-time `utcnow().isoformat()` with a `"Z"` suffix, non-ASCII
characters are never escaped by the serializer, and (for a transcript free of
characters JSON must escape — all non-ASCII characters qualify) the
serialized JSON contains the transcript verbatim between quotes. -/
theorem metadata_sidecar_C7 (entry_id audio_fn transcript : String)
    (spk lang : Option String) (t : UTCTime)
    (hplain : ∀ c ∈ transcript.data, c ≠ '"' ∧ c ≠ '\\' ∧ 32 ≤ c.toNat) :
    (meta_of entry_id audio_fn transcript spk lang (isoformat t ++ "Z")).map
        Prod.fst =
      ["id", "audio", "transcript", "speaker_id", "language", "timestamp"] ∧
    List.lookup "transcript" (meta_of entry_id audio_fn transcript spk lang
        (isoformat t ++ "Z")) = some (JVal.str transcript) ∧
    List.lookup "timestamp" (meta_of entry_id audio_fn transcript spk lang
        (isoformat t ++ "Z")) = some (JVal.str (isoformat t ++ "Z")) ∧
    (∀ c : Char, 128 ≤ c.toNat → jsonEscapeChar c = [c]) ∧
    (∃ pre post, json_dumps (meta_of entry_id audio_fn transcript spk lang
        (isoformat t ++ "Z")) = pre ++ ("\"" ++ transcript ++ "\"") ++ post) := by
  refine ⟨by simp [meta_of], by simp [meta_of, List.lookup], ?_, ?_, ?_⟩
  · simp [meta_of, List.lookup]
  · intro c hc
    have h1 : c ≠ '"' := by
      intro h; rw [h] at hc; exact absurd hc (by decide)
    have h2 : c ≠ '\\' := by
      intro h; rw [h] at hc; exact absurd hc (by decide)
    exact jsonEscapeChar_plain h1 h2 (by omega)
  · refine ⟨"\x7b" ++ jsonQuoteStr "id" ++ ": " ++ jval_render (JVal.str entry_id)
      ++ ", " ++ jsonQuoteStr "audio" ++ ": " ++ jval_render (JVal.str audio_fn)
      ++ ", " ++ jsonQuoteStr "transcript" ++ ": ",
      ", " ++ renderFields [("speaker_id", jopt spk), ("language", jopt lang),
        ("timestamp", JVal.str (isoformat t ++ "Z"))] ++ "\x7d", ?_⟩
    simp only [json_dumps, meta_of, renderFields, jval_render]
    rw [jsonQuoteStr_plain transcript hplain]
    simp only [String.append_assoc]

/-- Witness for C7 at a transcript containing non-ASCII chars. -/
theorem metadata_sidecar_C7_witness :
    (∀ c ∈ "héllo wörld".data, c ≠ '"' ∧ c ≠ '\\' ∧ 32 ≤ c.toNat) ∧
    (∃ pre post, json_dumps (meta_of "id0" "data/id0.flac" "héllo wörld"
        (some "spk1") (some "de") (isoformat ⟨2026, 1, 2, 3, 4, 5, 0⟩ ++ "Z")) =
      pre ++ ("\"" ++ "héllo wörld" ++ "\"") ++ post) := by
  refine ⟨by decide, ?_⟩
  exact (metadata_sidecar_C7 "id0" "data/id0.flac" "héllo wörld" (some "spk1")
    (some "de") ⟨2026, 1, 2, 3, 4, 5, 0⟩ (by decide)).2.2.2.2

end App

namespace Casting

/-- The constant `REPO_ID` from `casting.py`. -/
def REPO_ID : String := "IbraahimLab/Voice-so-data"

/-- The constant `REPO_SUBFOLDER`: the temporary Hub download cache root. -/
def REPO_SUBFOLDER : String := "tmp_audio_root"

/-- The constant `REPO_LOCAL_STORAGE`, computed by the script as
`os.path.join(REPO_SUBFOLDER, REPO_ID.split('/')[-1])`,
i.e. `tmp_audio_root/Voice-so-data`. -/
def REPO_LOCAL_STORAGE : String := REPO_SUBFOLDER ++ "/" ++ "Voice-so-data"

/-- The constant `LOCAL_CWD_DATA_DIR`: the working copy the push expects. -/
def LOCAL_CWD_DATA_DIR : String := "data"

/-- The local filesystem, as the sets of existing directory and file paths.
`casting.py` only ever creates directories (`os.makedirs(..., exist_ok=True)`),
writes files (`hf_hub_download`, `shutil.copy2`) and removes whole trees
(`shutil.rmtree(..., ignore_errors=True)`). -/
structure FS where
  dirs : List String
  files : List String
  deriving DecidableEq, Repr

def FS.mkdirs (p : String) (fs : FS) : FS :=
  if fs.dirs.contains p then fs else ⟨p :: fs.dirs, fs.files⟩

def FS.addFile (p : String) (fs : FS) : FS :=
  if fs.files.contains p then fs else ⟨fs.dirs, p :: fs.files⟩

/-- Model of `os.path.exists`. -/
def FS.exists (p : String) (fs : FS) : Bool :=
  fs.dirs.contains p || fs.files.contains p

/-- Whether path `p` is the root `root` or lies below it. -/
def isUnder (root p : String) : Bool :=
  p == root || List.isPrefixOf (root ++ "/").data p.data

/-- Model of `shutil.rmtree(root, ignore_errors=True)`: removes the whole tree. -/
def FS.rmtree (root : String) (fs : FS) : FS :=
  ⟨fs.dirs.filter (fun p => !isUnder root p),
   fs.files.filter (fun p => !isUnder root p)⟩

/-- Model of `os.path.dirname`: everything before the last slash (empty if none). -/
def dirname (p : String) : String :=
  String.mk (((p.data.reverse.dropWhile (fun c => c ≠ '/')).drop 1).reverse)

/-- The expected local cache path of a repo file,
`os.path.join(REPO_LOCAL_STORAGE, audio_filename_in_repo)` (the separator
replacement is the identity on POSIX). -/
def cachePath (filename : String) : String :=
  REPO_LOCAL_STORAGE ++ "/" ++ filename

/-- The dict key `f"\x7bsplit\x7d/\x7baudio_filename_in_repo\x7d"`. -/
def hub_key (split filename : String) : String := split ++ "/" ++ filename

/-- The `(split, row)` pairs visited by `for split in dataset.keys(): for row
in dataset[split]`, where a row is identified by its raw `audio` string (the
only field the pass reads or writes). -/
def pairsOf (d : List (String × List String)) : List (String × String) :=
  d.flatMap (fun sp => sp.2.map (fun f => (sp.1, f)))

/-- The first loop of `process_dataset`: per record, compute the cache path,
create its directory, and either reuse an existing cached file, download it
(`hub f` tells whether `hf_hub_download` succeeds for repo file `f`), or — on
a download failure — log and `continue`, leaving no `downloaded_paths`
entry. -/
def download_loop (hub : String → Bool) :
    List (String × String) → FS → List (String × String) → List String →
    FS × List (String × String) × List String
  | [], fs, dps, logs => (fs, dps, logs)
  | (split, filename) :: rest, fs, dps, logs =>
    let cache := cachePath filename
    let fs1 := FS.mkdirs (dirname cache) fs
    let key := hub_key split filename
    if FS.exists cache fs1 then
      download_loop hub rest fs1 (dps ++ [(key, cache)]) logs
    else if hub filename then
      download_loop hub rest (FS.addFile cache fs1) (dps ++ [(key, cache)]) logs
    else
      download_loop hub rest fs1 dps
        (logs ++ ["CRITICAL DOWNLOAD FAILED: " ++ filename])

/-- The second loop of `process_dataset`, for the rows of one split: a row
whose key has a `downloaded_paths` entry gets its file copied under the
current working directory (`shutil.copy2`; a copy failure is caught, logged
as a warning, and the path is rewritten regardless) and its `audio` field
rewritten to `os.path.abspath(expected_cwd_path)` — with `cwd` absolute this
is `cwd ++ "/" ++ filename`.  A row without an entry is left unchanged. -/
def rewrite_rows (dps : List (String × String)) (copyFails : String → Bool)
    (cwd split : String) : List String → FS → FS × List String
  | [], fs => (fs, [])
  | filename :: rest, fs =>
    match List.lookup (hub_key split filename) dps with
    | some _ =>
      let expected := cwd ++ "/" ++ filename
      let fs1 := FS.mkdirs (dirname expected) fs
      let fs2 := if copyFails expected then fs1 else FS.addFile expected fs1
      let r := rewrite_rows dps copyFails cwd split rest fs2
      (r.1, expected :: r.2)
    | none =>
      let r := rewrite_rows dps copyFails cwd split rest fs
      (r.1, filename :: r.2)

/-- The second loop over all splits, producing `updated_dataset`. -/
def rewrite_splits (dps : List (String × String)) (copyFails : String → Bool)
    (cwd : String) : List (String × List String) → FS →
    FS × List (String × List String)
  | [], fs => (fs, [])
  | (split, rows) :: rest, fs =>
    let r1 := rewrite_rows dps copyFails cwd split rows fs
    let r2 := rewrite_splits dps copyFails cwd rest r1.1
    (r2.1, (split, r1.2) :: r2.2)

/-- The push loop of `process_dataset`.  The single `try` wraps the whole
`for split_name, dataset_split in updated_dataset.items()` loop, so the first
failing `push_to_hub` raises out of the loop (the surrounding `except` logs
it); splits pushed before the failure stay pushed, splits after it are never
attempted.  Returns the pushed splits and whether the loop completed. -/
def push_loop (pushOk : String → Bool) : List String → List String × Bool
  | [] => ([], true)
  | s :: rest =>
    if pushOk s then
      let r := push_loop pushOk rest
      (s :: r.1, r.2)
    else ([], false)

/-- Observable outcome of one `process_dataset` run. -/
structure CastResult where
  fatal : Bool
  updated : List (String × List String)
  pushed : List String
  pushAll : Bool
  fs : FS
  logs : List String
  deriving Repr

/-- Model of `process_dataset` from `casting.py`.  `loadRes` models
`load_dataset(REPO_ID)` (error = `RepositoryNotFoundError`); `hub`, the
per-file success of `hf_hub_download`; `copyFails`, a (caught) failure of
`shutil.copy2`; `pushOk`, the per-split success of `push_to_hub`; `cwd`,
the absolute current working directory.  The `cast_column("audio", Audio())`
step is a lazy type reinterpretation with no effect on the string-level
state; decode errors surface at push time and live in `pushOk`.  Cleanup of
the two local trees is plain straight-line code after the push `try`. -/
def process_dataset (loadRes : Except Unit (List (String × List String)))
    (hub : String → Bool) (copyFails : String → Bool) (pushOk : String → Bool)
    (cwd : String) (fs0 : FS) : CastResult :=
  let fs := FS.mkdirs LOCAL_CWD_DATA_DIR (FS.mkdirs REPO_LOCAL_STORAGE fs0)
  match loadRes with
  | Except.error _ =>
    { fatal := true, updated := [], pushed := [], pushAll := false,
      fs := FS.rmtree REPO_SUBFOLDER fs,
      logs := ["FATAL ERROR: Could not load repository."] }
  | Except.ok dataset =>
    let d1 := download_loop hub (pairsOf dataset) fs [] []
    let r2 := rewrite_splits d1.2.1 copyFails cwd dataset d1.1
    let pl := push_loop pushOk (r2.2.map Prod.fst)
    { fatal := false, updated := r2.2, pushed := pl.1, pushAll := pl.2,
      fs := FS.rmtree LOCAL_CWD_DATA_DIR (FS.rmtree REPO_SUBFOLDER r2.1),
      logs := d1.2.2 ++
        (if pl.2 then [] else ["FATAL PUSH ERROR: Failed to push."]) }

theorem mem_rmtree_dirs {root p : String} {fs : FS}
    (h : p ∈ (FS.rmtree root fs).dirs) : p ∈ fs.dirs ∧ isUnder root p = false := by
  simpa [FS.rmtree, List.mem_filter] using h

theorem mem_rmtree_files {root p : String} {fs : FS}
    (h : p ∈ (FS.rmtree root fs).files) :
    p ∈ fs.files ∧ isUnder root p = false := by
  simpa [FS.rmtree, List.mem_filter] using h

theorem mem_mkdirs_self (p : String) (fs : FS) : p ∈ (FS.mkdirs p fs).dirs := by
  unfold FS.mkdirs
  split
  next h => exact List.mem_of_elem_eq_true h
  next h => exact List.mem_cons_self p fs.dirs

theorem mem_mkdirs_of_mem {p : String} (q : String) {fs : FS}
    (h : p ∈ fs.dirs) : p ∈ (FS.mkdirs q fs).dirs := by
  unfold FS.mkdirs
  split
  · exact h
  · exact List.mem_cons_of_mem q h

/-- C4 counterexample: a run that fails fatally at the dataset load (starting
from an empty filesystem) still has the working-copy `data` directory on disk
afterwards — only the temporary cache tree was removed — contradicting the
claim that both directories are removed after every invocation. -/
theorem cleanup_C4_cex :
    FS.exists LOCAL_CWD_DATA_DIR
      (process_dataset (Except.error ()) (fun _ => true) (fun _ => false)
        (fun _ => true) "/cwd" ⟨[], []⟩).fs = true := by decide

/-- C4 (amended): after a run whose dataset load succeeded, nothing under the
temporary cache root nor under the working-copy data directory remains on
disk, whatever download, copy or push failures occurred; after a fatal load
failure only the temporary cache tree is removed, and the working-copy
`data` directory (created at startup) remains. -/
theorem cleanup_C4 (loadRes : Except Unit (List (String × List String)))
    (hub copyFails pushOk : String → Bool) (cwd : String) (fs0 : FS) :
    (∀ d, loadRes = Except.ok d → ∀ p,
      (p ∈ (process_dataset loadRes hub copyFails pushOk cwd fs0).fs.dirs ∨
       p ∈ (process_dataset loadRes hub copyFails pushOk cwd fs0).fs.files) →
      isUnder REPO_SUBFOLDER p = false ∧
      isUnder LOCAL_CWD_DATA_DIR p = false) ∧
    (∀ e, loadRes = Except.error e →
      (∀ p,
        (p ∈ (process_dataset loadRes hub copyFails pushOk cwd fs0).fs.dirs ∨
         p ∈ (process_dataset loadRes hub copyFails pushOk cwd fs0).fs.files) →
        isUnder REPO_SUBFOLDER p = false) ∧
      LOCAL_CWD_DATA_DIR ∈
        (process_dataset loadRes hub copyFails pushOk cwd fs0).fs.dirs) := by
  constructor
  · rintro d rfl p hp
    rcases hp with hp | hp
    · obtain ⟨hp2, hdata⟩ := mem_rmtree_dirs hp
      exact ⟨(mem_rmtree_dirs hp2).2, hdata⟩
    · obtain ⟨hp2, hdata⟩ := mem_rmtree_files hp
      exact ⟨(mem_rmtree_files hp2).2, hdata⟩
  · rintro e rfl
    constructor
    · rintro p (hp | hp)
      · exact (mem_rmtree_dirs hp).2
      · exact (mem_rmtree_files hp).2
    · show LOCAL_CWD_DATA_DIR ∈ (FS.rmtree REPO_SUBFOLDER
        (FS.mkdirs LOCAL_CWD_DATA_DIR (FS.mkdirs REPO_LOCAL_STORAGE fs0))).dirs
      refine List.mem_filter.mpr ⟨mem_mkdirs_self _ _, ?_⟩
      decide

/-- Witness for C4 (amended): the fatal-load branch at a concrete input. -/
theorem cleanup_C4_witness :
    LOCAL_CWD_DATA_DIR ∈
      (process_dataset (Except.error ()) (fun _ => false) (fun _ => false)
        (fun _ => false) "/cwd" ⟨["pre"], ["pre/f"]⟩).fs.dirs :=
  ((cleanup_C4 (Except.error ()) (fun _ => false) (fun _ => false)
    (fun _ => false) "/cwd" ⟨["pre"], ["pre/f"]⟩).2 () rfl).2

theorem push_loop_eq_takeWhile (pushOk : String → Bool) (l : List String) :
    (push_loop pushOk l).1 = l.takeWhile pushOk := by
  induction l with
  | nil => rfl
  | cons s rest ih =>
    cases h : pushOk s <;> simp [push_loop, h, List.takeWhile_cons, ih]

theorem rewrite_splits_names (dps : List (String × String))
    (copyFails : String → Bool) (cwd : String) :
    ∀ (d : List (String × List String)) (fs : FS),
      (rewrite_splits dps copyFails cwd d fs).2.map Prod.fst = d.map Prod.fst := by
  intro d
  induction d with
  | nil => intro fs; rfl
  | cons sp rest ih =>
    intro fs
    obtain ⟨split, rows⟩ := sp
    simp [rewrite_splits, ih]

/-- C5 counterexample: with two splits where pushing `train` fails and
pushing `test` would succeed, the failure is not isolated per split — the
`test` split is never published, contradicting the claim that remaining
splits are still pushed. -/
theorem per_split_publish_C5_cex :
    "test" ∉ (process_dataset (Except.ok [("train", []), ("test", [])])
      (fun _ => true) (fun _ => false) (fun s => s == "test") "/cwd"
      ⟨[], []⟩).pushed := by decide

/-- C5 (amended): the pass publishes with one `push_to_hub` call per split,
in dataset order; splits pushed before a failure stay pushed (no rollback),
but the first failing split aborts the loop, so exactly the longest prefix of
splits whose pushes succeed is published; the run still completes (the
failure is caught and logged after the loop). -/
theorem per_split_publish_C5 (d : List (String × List String))
    (hub copyFails pushOk : String → Bool) (cwd : String) (fs0 : FS) :
    (process_dataset (Except.ok d) hub copyFails pushOk cwd fs0).fatal = false ∧
    (process_dataset (Except.ok d) hub copyFails pushOk cwd fs0).pushed =
      (d.map Prod.fst).takeWhile pushOk := by
  refine ⟨rfl, ?_⟩
  show (push_loop pushOk ((rewrite_splits (download_loop hub (pairsOf d)
      (FS.mkdirs LOCAL_CWD_DATA_DIR (FS.mkdirs REPO_LOCAL_STORAGE fs0)) []
      []).2.1 copyFails cwd d (download_loop hub (pairsOf d)
      (FS.mkdirs LOCAL_CWD_DATA_DIR (FS.mkdirs REPO_LOCAL_STORAGE fs0)) []
      []).1).2.map Prod.fst)).1 = (d.map Prod.fst).takeWhile pushOk
  rw [push_loop_eq_takeWhile, rewrite_splits_names]

theorem exists_mkdirs_iff (p q : String) (fs : FS) :
    FS.exists p (FS.mkdirs q fs) = true ↔ (FS.exists p fs = true ∨ p = q) := by
  unfold FS.exists FS.mkdirs
  split
  next hq =>
    constructor
    · exact Or.inl
    · rintro (h | rfl)
      · exact h
      · simp only [Bool.or_eq_true]
        exact Or.inl hq
  next hq =>
    simp only [List.contains_cons, Bool.or_eq_true, beq_iff_eq]
    tauto

theorem exists_addFile_iff (p q : String) (fs : FS) :
    FS.exists p (FS.addFile q fs) = true ↔ (FS.exists p fs = true ∨ p = q) := by
  unfold FS.exists FS.addFile
  split
  next hq =>
    constructor
    · exact Or.inl
    · rintro (h | rfl)
      · exact h
      · simp only [Bool.or_eq_true]
        exact Or.inr hq
  next hq =>
    simp only [List.contains_cons, Bool.or_eq_true, beq_iff_eq]
    tauto

theorem cachePath_inj {a b : String} (h : cachePath a = cachePath b) : a = b := by
  have h2 := congrArg String.data h
  simp only [cachePath, String.data_append, List.append_assoc] at h2
  exact String.ext (List.append_cancel_left (List.append_cancel_left h2))

theorem cachePath_data_length (f : String) :
    (cachePath f).data.length = 29 + f.data.length := by
  have h : (cachePath f).data = (REPO_LOCAL_STORAGE ++ "/").data ++ f.data :=
    String.data_append _ _
  rw [h, List.length_append]
  have h29 : (REPO_LOCAL_STORAGE ++ "/").data.length = 29 := by rfl
  omega

theorem cachePath_ne_data (f : String) : cachePath f ≠ LOCAL_CWD_DATA_DIR := by
  intro h
  have h2 := congrArg (fun s => s.data.length) h
  simp only at h2
  rw [cachePath_data_length] at h2
  have h4 : LOCAL_CWD_DATA_DIR.data.length = 4 := by rfl
  omega

theorem cachePath_ne_storage (f : String) : cachePath f ≠ REPO_LOCAL_STORAGE := by
  intro h
  have h2 := congrArg (fun s => s.data.length) h
  simp only at h2
  rw [cachePath_data_length] at h2
  have h28 : REPO_LOCAL_STORAGE.data.length = 28 := by rfl
  omega

theorem mem_pairsOf {d : List (String × List String)}
    {sp : String × List String} {f : String} (h1 : sp ∈ d) (h2 : f ∈ sp.2) :
    (sp.1, f) ∈ pairsOf d := by
  unfold pairsOf
  exact List.mem_flatMap.mpr ⟨sp, h1, List.mem_map_of_mem _ h2⟩

/-- The first loop characterized: starting from a filesystem in which a
cached copy of a repo file only exists if the hub can serve that file, the
`downloaded_paths` dict collects exactly the keys of the pairs whose file the
hub serves (in order, valued at the cache path), the log collects exactly the
download failures, and the cache invariant is preserved. -/
theorem download_loop_spec (hub : String → Bool) (F : List String)
    (H2 : ∀ f ∈ F, ∀ g ∈ F, cachePath f ≠ dirname (cachePath g)) :
    ∀ (ps : List (String × String)) (fs : FS) (dps : List (String × String))
      (logs : List String),
      (∀ pr ∈ ps, pr.2 ∈ F) →
      (∀ f ∈ F, FS.exists (cachePath f) fs = true → hub f = true) →
      (download_loop hub ps fs dps logs).2.1 =
          dps ++ (ps.filter (fun pr => hub pr.2)).map
            (fun pr => (hub_key pr.1 pr.2, cachePath pr.2)) ∧
      (download_loop hub ps fs dps logs).2.2 =
          logs ++ (ps.filter (fun pr => !hub pr.2)).map
            (fun pr => "CRITICAL DOWNLOAD FAILED: " ++ pr.2) ∧
      (∀ f ∈ F,
        FS.exists (cachePath f) (download_loop hub ps fs dps logs).1 = true →
        hub f = true) := by
  intro ps
  induction ps with
  | nil =>
    intro fs dps logs _ hInv
    exact ⟨by simp [download_loop], by simp [download_loop], hInv⟩
  | cons pr rest ih =>
    obtain ⟨split, filename⟩ := pr
    intro fs dps logs hmem hInv
    have hfF : filename ∈ F := hmem (split, filename) (List.mem_cons_self _ _)
    have hmemR : ∀ x ∈ rest, x.2 ∈ F :=
      fun x hx => hmem x (List.mem_cons_of_mem _ hx)
    have hInv1 : ∀ f ∈ F, FS.exists (cachePath f)
        (FS.mkdirs (dirname (cachePath filename)) fs) = true → hub f = true := by
      intro f hf hex
      rcases (exists_mkdirs_iff _ _ _).1 hex with h | h
      · exact hInv f hf h
      · exact absurd h (H2 f hf filename hfF)
    cases hex : FS.exists (cachePath filename)
        (FS.mkdirs (dirname (cachePath filename)) fs) with
    | true =>
      have hhub : hub filename = true := hInv1 filename hfF hex
      obtain ⟨e1, e2, e3⟩ := ih _ (dps ++ [(hub_key split filename,
        cachePath filename)]) logs hmemR hInv1
      refine ⟨?_, ?_, ?_⟩
      · rw [show (download_loop hub ((split, filename) :: rest) fs dps logs) =
          download_loop hub rest (FS.mkdirs (dirname (cachePath filename)) fs)
            (dps ++ [(hub_key split filename, cachePath filename)]) logs by
            simp [download_loop, hex]]
        rw [e1]
        simp [List.filter_cons, hhub]
      · rw [show (download_loop hub ((split, filename) :: rest) fs dps logs) =
          download_loop hub rest (FS.mkdirs (dirname (cachePath filename)) fs)
            (dps ++ [(hub_key split filename, cachePath filename)]) logs by
            simp [download_loop, hex]]
        rw [e2]
        simp [List.filter_cons, hhub]
      · rw [show (download_loop hub ((split, filename) :: rest) fs dps logs) =
          download_loop hub rest (FS.mkdirs (dirname (cachePath filename)) fs)
            (dps ++ [(hub_key split filename, cachePath filename)]) logs by
            simp [download_loop, hex]]
        exact e3
    | false =>
      cases hhub : hub filename with
      | true =>
        have hInv2 : ∀ f ∈ F, FS.exists (cachePath f)
            (FS.addFile (cachePath filename)
              (FS.mkdirs (dirname (cachePath filename)) fs)) = true →
            hub f = true := by
          intro f hf hex2
          rcases (exists_addFile_iff _ _ _).1 hex2 with h | h
          · exact hInv1 f hf h
          · rw [cachePath_inj h]
            exact hhub
        obtain ⟨e1, e2, e3⟩ := ih _ (dps ++ [(hub_key split filename,
          cachePath filename)]) logs hmemR hInv2
        have hstep : download_loop hub ((split, filename) :: rest) fs dps logs =
            download_loop hub rest (FS.addFile (cachePath filename)
              (FS.mkdirs (dirname (cachePath filename)) fs))
              (dps ++ [(hub_key split filename, cachePath filename)]) logs := by
          simp [download_loop, hex, hhub]
        refine ⟨?_, ?_, ?_⟩
        · rw [hstep, e1]
          simp [List.filter_cons, hhub]
        · rw [hstep, e2]
          simp [List.filter_cons, hhub]
        · rw [hstep]
          exact e3
      | false =>
        obtain ⟨e1, e2, e3⟩ := ih _ dps (logs ++
          ["CRITICAL DOWNLOAD FAILED: " ++ filename]) hmemR hInv1
        have hstep : download_loop hub ((split, filename) :: rest) fs dps logs =
            download_loop hub rest (FS.mkdirs (dirname (cachePath filename)) fs)
              dps (logs ++ ["CRITICAL DOWNLOAD FAILED: " ++ filename]) := by
          simp [download_loop, hex, hhub]
        refine ⟨?_, ?_, ?_⟩
        · rw [hstep, e1]
          simp [List.filter_cons, hhub]
        · rw [hstep, e2]
          simp [List.filter_cons, hhub]
        · rw [hstep]
          exact e3

theorem lookup_dps_none (hub : String → Bool) (k : String) :
    ∀ ps : List (String × String),
      (∀ pr ∈ ps, hub pr.2 = true → hub_key pr.1 pr.2 ≠ k) →
      List.lookup k ((ps.filter (fun pr => hub pr.2)).map
        (fun pr => (hub_key pr.1 pr.2, cachePath pr.2))) = none := by
  intro ps
  induction ps with
  | nil => intro _; rfl
  | cons pr rest ih =>
    intro h
    cases hhub : hub pr.2 with
    | false =>
      simp only [List.filter_cons, hhub, Bool.false_eq_true, if_false]
      exact ih (fun x hx => h x (List.mem_cons_of_mem _ hx))
    | true =>
      have hbeq : (k == hub_key pr.1 pr.2) = false := by
        simp only [beq_eq_false_iff_ne, ne_eq]
        exact fun hEq => h pr (List.mem_cons_self _ _) hhub hEq.symm
      simp only [List.filter_cons, hhub, if_true, List.map_cons,
        List.lookup_cons, hbeq]
      exact ih (fun x hx => h x (List.mem_cons_of_mem _ hx))

theorem lookup_dps_some (hub : String → Bool) (s f : String) :
    ∀ ps : List (String × String), (s, f) ∈ ps → hub f = true →
      (List.lookup (hub_key s f) ((ps.filter (fun pr => hub pr.2)).map
        (fun pr => (hub_key pr.1 pr.2, cachePath pr.2)))).isSome = true := by
  intro ps
  induction ps with
  | nil => intro h; cases h
  | cons pr rest ih =>
    intro hmem hhubf
    rcases List.mem_cons.mp hmem with hEq | hmem2
    · cases hEq
      simp [List.filter_cons, hhubf, List.lookup_cons]
    · cases hhubp : hub pr.2 with
      | false =>
        simp only [List.filter_cons, hhubp, Bool.false_eq_true, if_false]
        exact ih hmem2 hhubf
      | true =>
        cases hk : (hub_key s f == hub_key pr.1 pr.2) with
        | true =>
          simp [List.filter_cons, hhubp, List.lookup_cons, hk]
        | false =>
          simp only [List.filter_cons, hhubp, if_true, List.map_cons,
            List.lookup_cons, hk]
          exact ih hmem2 hhubf

theorem rewrite_rows_out (dps : List (String × String))
    (copyFails : String → Bool) (cwd split : String) (hub : String → Bool) :
    ∀ (rows : List String) (fs : FS),
      (∀ f ∈ rows, (List.lookup (hub_key split f) dps).isSome = hub f) →
      (rewrite_rows dps copyFails cwd split rows fs).2 =
        rows.map (fun f => if hub f then cwd ++ "/" ++ f else f) := by
  intro rows
  induction rows with
  | nil => intro fs _; rfl
  | cons f rest ih =>
    intro fs h
    have hf := h f (List.mem_cons_self _ _)
    have hrest := fun x hx => h x (List.mem_cons_of_mem f hx)
    cases hl : List.lookup (hub_key split f) dps with
    | none =>
      have hhubf : hub f = false := by rw [← hf, hl]; rfl
      simp [rewrite_rows, hl, hhubf, ih _ hrest]
    | some v =>
      have hhubf : hub f = true := by rw [← hf, hl]; rfl
      simp [rewrite_rows, hl, hhubf, ih _ hrest]

theorem rewrite_splits_out (dps : List (String × String))
    (copyFails : String → Bool) (cwd : String) (hub : String → Bool) :
    ∀ (d : List (String × List String)) (fs : FS),
      (∀ sp ∈ d, ∀ f ∈ sp.2,
        (List.lookup (hub_key sp.1 f) dps).isSome = hub f) →
      (rewrite_splits dps copyFails cwd d fs).2 =
        d.map (fun sp => (sp.1, sp.2.map
          (fun f => if hub f then cwd ++ "/" ++ f else f))) := by
  intro d
  induction d with
  | nil => intro fs _; rfl
  | cons sp rest ih =>
    intro fs h
    obtain ⟨split, rows⟩ := sp
    simp [rewrite_splits,
      rewrite_rows_out dps copyFails cwd split hub rows fs
        (fun f hf => h (split, rows) (List.mem_cons_self _ _) f hf),
      ih _ (fun x hx => h x (List.mem_cons_of_mem _ hx))]

/-- C6: when the dataset loads and the run starts with an empty cache (and
filenames/keys do not pathologically collide), a per-record download failure
is logged as `CRITICAL DOWNLOAD FAILED` and that record is skipped without
aborting the pass: the pass completes (not fatal), every record whose blob
the hub could not serve keeps its original store-relative `audio` string, and
every record whose download succeeded is rewritten to the absolute local path
`cwd/<relative path>` of its working copy. -/
theorem download_skip_C6 (d : List (String × List String))
    (hub copyFails pushOk : String → Bool) (cwd : String) (fs0 : FS)
    (H1 : ∀ pr ∈ pairsOf d, FS.exists (cachePath pr.2) fs0 = false)
    (H2 : ∀ f ∈ (pairsOf d).map Prod.snd, ∀ g ∈ (pairsOf d).map Prod.snd,
      cachePath f ≠ dirname (cachePath g))
    (H3 : ∀ pr ∈ pairsOf d, ∀ pr2 ∈ pairsOf d,
      hub_key pr.1 pr.2 = hub_key pr2.1 pr2.2 → pr.2 = pr2.2) :
    (process_dataset (Except.ok d) hub copyFails pushOk cwd fs0).fatal = false ∧
    (process_dataset (Except.ok d) hub copyFails pushOk cwd fs0).updated =
      d.map (fun sp => (sp.1, sp.2.map
        (fun f => if hub f then cwd ++ "/" ++ f else f))) ∧
    (∀ sp ∈ d, ∀ f ∈ sp.2, hub f = false →
      ("CRITICAL DOWNLOAD FAILED: " ++ f) ∈
        (process_dataset (Except.ok d) hub copyFails pushOk cwd fs0).logs) := by
  have hInv0 : ∀ f ∈ (pairsOf d).map Prod.snd,
      FS.exists (cachePath f)
        (FS.mkdirs LOCAL_CWD_DATA_DIR (FS.mkdirs REPO_LOCAL_STORAGE fs0)) =
        true → hub f = true := by
    intro f hf hex
    rcases (exists_mkdirs_iff _ _ _).1 hex with hex2 | hEq
    · rcases (exists_mkdirs_iff _ _ _).1 hex2 with hex3 | hEq
      · obtain ⟨pr, hpr, hpr2⟩ := List.mem_map.mp hf
        rw [← hpr2] at hex3
        rw [H1 pr hpr] at hex3
        cases hex3
      · exact absurd hEq (cachePath_ne_storage f)
    · exact absurd hEq (cachePath_ne_data f)
  obtain ⟨hdps, hlogs, _⟩ := download_loop_spec hub ((pairsOf d).map Prod.snd)
    H2 (pairsOf d)
    (FS.mkdirs LOCAL_CWD_DATA_DIR (FS.mkdirs REPO_LOCAL_STORAGE fs0)) [] []
    (fun pr hpr => List.mem_map_of_mem _ hpr) hInv0
  have hkey : ∀ sp ∈ d, ∀ f ∈ sp.2,
      (List.lookup (hub_key sp.1 f)
        (download_loop hub (pairsOf d)
          (FS.mkdirs LOCAL_CWD_DATA_DIR (FS.mkdirs REPO_LOCAL_STORAGE fs0)) []
          []).2.1).isSome = hub f := by
    intro sp hsp f hf
    rw [hdps, List.nil_append]
    cases hhubf : hub f with
    | true =>
      exact lookup_dps_some hub sp.1 f (pairsOf d) (mem_pairsOf hsp hf) hhubf
    | false =>
      rw [lookup_dps_none hub (hub_key sp.1 f) (pairsOf d) ?_]
      · rfl
      · intro pr hpr hhubpr hEq
        have h2 := H3 pr hpr (sp.1, f) (mem_pairsOf hsp hf) hEq
        simp [h2, hhubf] at hhubpr
  refine ⟨rfl, ?_, ?_⟩
  · show (rewrite_splits
        (download_loop hub (pairsOf d)
          (FS.mkdirs LOCAL_CWD_DATA_DIR (FS.mkdirs REPO_LOCAL_STORAGE fs0)) []
          []).2.1 copyFails cwd d
        (download_loop hub (pairsOf d)
          (FS.mkdirs LOCAL_CWD_DATA_DIR (FS.mkdirs REPO_LOCAL_STORAGE fs0)) []
          []).1).2 =
      d.map (fun sp => (sp.1, sp.2.map
        (fun f => if hub f then cwd ++ "/" ++ f else f)))
    exact rewrite_splits_out _ copyFails cwd hub d _ hkey
  · intro sp hsp f hf hhubf
    show ("CRITICAL DOWNLOAD FAILED: " ++ f) ∈
      (download_loop hub (pairsOf d)
        (FS.mkdirs LOCAL_CWD_DATA_DIR (FS.mkdirs REPO_LOCAL_STORAGE fs0)) []
        []).2.2 ++
      (if (push_loop pushOk ((rewrite_splits
          (download_loop hub (pairsOf d)
            (FS.mkdirs LOCAL_CWD_DATA_DIR (FS.mkdirs REPO_LOCAL_STORAGE fs0))
            [] []).2.1 copyFails cwd d
          (download_loop hub (pairsOf d)
            (FS.mkdirs LOCAL_CWD_DATA_DIR (FS.mkdirs REPO_LOCAL_STORAGE fs0))
            [] []).1).2.map Prod.fst)).2 then []
       else ["FATAL PUSH ERROR: Failed to push."])
    refine List.mem_append_left _ ?_
    rw [hlogs, List.nil_append]
    refine List.mem_map.mpr ⟨(sp.1, f), List.mem_filter.mpr
      ⟨mem_pairsOf hsp hf, ?_⟩, rfl⟩
    simp [hhubf]

/-- Witness for C6: two records, one of which the hub cannot serve.  The
served one is rewritten to an absolute local path, the other keeps its
store-relative string, and its failure is logged. -/
theorem download_skip_C6_witness :
    (∀ pr ∈ pairsOf [("train", ["data/a.flac", "data/b.flac"])],
      FS.exists (cachePath pr.2) (⟨[], []⟩ : FS) = false) ∧
    (process_dataset (Except.ok [("train", ["data/a.flac", "data/b.flac"])])
        (fun f => f == "data/a.flac") (fun _ => false) (fun _ => true) "/cwd"
        ⟨[], []⟩).updated =
      [("train", ["data/a.flac", "data/b.flac"])].map (fun sp => (sp.1,
        sp.2.map (fun f => if (f == "data/a.flac") then "/cwd" ++ "/" ++ f
          else f))) := by
  refine ⟨by decide, ?_⟩
  exact (download_skip_C6 [("train", ["data/a.flac", "data/b.flac"])]
    (fun f => f == "data/a.flac") (fun _ => false) (fun _ => true) "/cwd"
    ⟨[], []⟩ (by decide) (by decide) (by decide)).2.1

end Casting
